import Mathlib

/-!
Verification of the script-teleprompter application (src/script.js).

The development shallowly embeds the three cores of the program:
  * the dialogue parser `parseDialogue` with its heuristic line classifiers,
  * the recording flow (filtered walk per record character, clip storage),
  * the production flow (linear walk mixing playback, live speech, skipping).

Strings are Lean `String`s; the JavaScript regexes and string methods used by
the classifiers are modelled character-by-character on `List Char` (the source
only manipulates ASCII here).  JavaScript `Map`/`Set` values become association
lists / lists without duplicates, audio blobs become opaque `Nat` ids, and the
fallible Web-Audio post-processing chain is an `Except`-valued parameter.
-/

namespace Ivan

/-- ASCII uppercase letter test, the regex character class [A-Z]. -/
def isUpperAZ (c : Char) : Bool := 'A' ≤ c && c ≤ 'Z'

/-- ASCII digit test, the regex character class \d. -/
def isDigitAscii (c : Char) : Bool := '0' ≤ c && c ≤ '9'

/-- Whitespace as matched by the regex class \s (its ASCII members, which are
the only ones the scripts at hand can contain). -/
def isJsSpace (c : Char) : Bool :=
  c = ' ' || c = '\t' || c = '\n' || c = '\r' || c = Char.ofNat 11 || c = Char.ofNat 12

/-- ASCII lowercasing of one character, what toLowerCase does on ASCII. -/
def toLowerAscii (c : Char) : Char :=
  if isUpperAZ c then Char.ofNat (c.toNat + 32) else c

/-- line.toLowerCase(). -/
def lowerStr (s : String) : String := String.mk (s.toList.map toLowerAscii)

/-- Split a character list at every occurrence of sep keeping empty pieces,
as JavaScript split with a single-character separator. -/
def splitOnChar (sep : Char) : List Char → List (List Char)
  | [] => [[]]
  | c :: rest =>
    let r := splitOnChar sep rest
    if c = sep then [] :: r
    else
      match r with
      | [] => [[c]]
      | h :: t => (c :: h) :: t

/-- JavaScript trim on a character list. -/
def trimChars (cs : List Char) : List Char :=
  ((cs.dropWhile isJsSpace).reverse.dropWhile isJsSpace).reverse

/-- Does hay contain needle as a contiguous run (JavaScript includes). -/
def containsSub (needle : List Char) : List Char → Bool
  | [] => needle.isEmpty
  | c :: rest => needle.isPrefixOf (c :: rest) || containsSub needle rest

/-- s.includes(w): substring containment on strings. -/
def strIncludes (s w : String) : Bool := containsSub w.toList s.toList

/-- isSceneHeading: the regex ^(INT\.|EXT\.) — the line starts with INT. or EXT. -/
def isSceneHeading (line : String) : Bool :=
  "INT.".toList.isPrefixOf line.toList || "EXT.".toList.isPrefixOf line.toList

/-- The regex ^[A-Z]+,\s*\d+ (all classes involved are pairwise disjoint, so the
greedy runs below are exactly the regex's backtracking semantics). -/
def matchesUpperCommaDigits (cs : List Char) : Bool :=
  let caps := cs.takeWhile isUpperAZ
  let rest := cs.drop caps.length
  caps.length > 0 &&
    (match rest with
     | ',' :: afterComma =>
       (match afterComma.dropWhile isJsSpace with
        | d :: _ => isDigitAscii d
        | [] => false)
     | _ => false)

/-- The regex ^[A-Z]+\s+\( . -/
def matchesUpperSpaceParen (cs : List Char) : Bool :=
  let caps := cs.takeWhile isUpperAZ
  let rest := cs.drop caps.length
  let sps := rest.takeWhile isJsSpace
  caps.length > 0 && sps.length > 0 && ((rest.drop sps.length).head? == some '(')

/-- isCharacterDescription: lines like "SARAH, 28, sits…" or "SARAH (agitated)". -/
def isCharacterDescription (line : String) : Bool :=
  matchesUpperCommaDigits line.toList || matchesUpperSpaceParen line.toList

/-- The stop words ruled out inside isCharacterNameDirect. -/
def characterStopWords : List String :=
  ["THE", "AND", "OR", "BUT", "WITH", "FROM", "INTO", "UPON", "UNDER", "OVER"]

/-- One word of a candidate character name: the regex ^[A-Z]+$ together with the
length bounds 1 < length ≤ 15. -/
def isAllCapsWord (w : List Char) : Bool :=
  w.length > 0 && w.all isUpperAZ && w.length > 1 && w.length ≤ 15

/-- isCharacterNameDirect: 1 to 4 space-separated words, each ALL CAPS of length
2..15, and none of them a stop word. -/
def isCharacterNameDirect (line : String) : Bool :=
  let words := splitOnChar ' ' line.toList
  if words.length ≥ 1 && words.length ≤ 4 then
    (words.all isAllCapsWord) &&
      !(words.any (fun w => characterStopWords.contains (String.mk w)))
  else
    false

/-- The action words scanned for by isActionLine. -/
def actionWords : List String :=
  ["sits", "stands", "walks", "approaches", "looks", "turns", "takes",
   "places", "rushes", "enjoy", "typing", "laptop"]

/-- isActionLine: contains one of the action words (case-insensitively) and is
not a direct character name. -/
def isActionLine (line : String) : Bool :=
  (actionWords.any (fun w => strIncludes (lowerStr line) w)) && !(isCharacterNameDirect line)

/-- isCharacterName: not a scene heading or character description, and passes
the direct ALL-CAPS check. -/
def isCharacterName (line : String) : Bool :=
  if isSceneHeading line || isCharacterDescription line then false
  else isCharacterNameDirect line

/-- The stage-direction words scanned for by isDialogue. -/
def stageDirectionWords : List String :=
  ["considers", "eyes", "light", "up", "places", "sits", "approaches",
   "looks", "turns", "takes", "rushes", "enjoy", "typing", "laptop",
   "fade", "end", "continues", "moves", "walks", "stands", "enters", "exits"]

/-- The dialogue words scanned for by isDialogue. -/
def dialogueWords : List String :=
  ["I", "you", "the", "a", "an", "and", "or", "but", "thanks", "hey",
   "hello", "yes", "no", "well", "okay", "sure", "really", "what", "how",
   "why", "when", "where"]

/-- The regex ^[A-Z\s]+$ : non-empty and made only of capitals and whitespace. -/
def isAllCapsSpace (line : String) : Bool :=
  line.length > 0 && line.toList.all (fun c => isUpperAZ c || isJsSpace c)

/-- isDialogue, with the source's operator precedence kept: the stage-direction
test is (words && ('s' in both spellings)) || 'this' || 'moment' || 'eyes' || 'light'. -/
def isDialogue (line : String) : Bool :=
  if isSceneHeading line || isCharacterDescription line || isCharacterNameDirect line then false
  else
    let lower := lowerStr line
    let isStageDirection :=
      (stageDirectionWords.any (fun w => strIncludes lower w) &&
        (strIncludes line "s" && strIncludes lower "s")) ||
      strIncludes lower "this" || strIncludes lower "moment" ||
      strIncludes lower "eyes" || strIncludes lower "light"
    if isStageDirection then false
    else if isAllCapsSpace line && line.length > 3 then false
    else
      let hasDialogueWords := dialogueWords.any (fun w => strIncludes lower (lowerStr w))
      let notAllCaps := !(isAllCapsSpace line) || line.length < 10
      let hasDialoguePatterns :=
        strIncludes line "?" || strIncludes line "!" || strIncludes line "." ||
        strIncludes lower "i " || strIncludes lower "you " ||
        strIncludes lower "the " || strIncludes lower "a " ||
        strIncludes lower "an " || strIncludes lower "and "
      hasDialogueWords && notAllCaps && hasDialoguePatterns && line.length > 0

/-- A parsed dialogue record {number, character, dialogue}. -/
structure DLine where
  number : Nat
  character : String
  dialogue : String
deriving DecidableEq

/-- JavaScript Set.add on a duplicate-free list kept in insertion order. -/
def addToSet (l : List String) (a : String) : List String :=
  if a ∈ l then l else l ++ [a]

/-- The loop state of parseDialogue. -/
structure ParseState where
  currentCharacter : String
  lineNumber : Nat
  lines : List DLine
  characters : List String
deriving DecidableEq

/-- One iteration of the parseDialogue loop body over a trimmed non-empty line. -/
def parseStep (st : ParseState) (line : String) : ParseState :=
  if isSceneHeading line || isActionLine line || isCharacterDescription line then
    { st with currentCharacter := "" }
  else if isCharacterName line then
    { st with currentCharacter := String.mk (trimChars line.toList) }
  else if (st.currentCharacter != "") && isDialogue line then
    { st with
      characters := addToSet st.characters st.currentCharacter,
      lines := st.lines ++
        [{ number := st.lineNumber, character := st.currentCharacter, dialogue := line }],
      lineNumber := st.lineNumber + 1 }
  else st

/-- parseDialogue: split on newlines, trim, drop empties, run the classifier
loop.  fileName only feeds the isFountain flag, which the source never reads. -/
def parseDialogue (text : String) (_fileName : String) : List DLine × List String :=
  let textLines :=
    ((splitOnChar '\n' text.toList).map trimChars).filter (fun l => l.length > 0)
  let final := textLines.foldl (fun st l => parseStep st (String.mk l)) ⟨"", 1, [], []⟩
  (final.lines, final.characters)

/-! ## Recording flow -/

/-- Inner recording map lineNumber → clip id; JavaScript Map.set replaces an
existing key in place and otherwise appends. -/
def mapSet : List (Nat × Nat) → Nat → Nat → List (Nat × Nat)
  | [], k, v => [(k, v)]
  | (k', v') :: rest, k, v =>
    if k' = k then (k, v) :: rest else (k', v') :: mapSet rest k v

/-- Inner map lookup, JavaScript Map.get. -/
def mapGet : List (Nat × Nat) → Nat → Option Nat
  | [], _ => none
  | (k', v) :: rest, k => if k' = k then some v else mapGet rest k

/-- audioRecordings.get(character): the outer Map of character → inner map. -/
def recsGet : List (String × List (Nat × Nat)) → String → Option (List (Nat × Nat))
  | [], _ => none
  | (c', m) :: rest, c => if c' = c then some m else recsGet rest c

/-- audioRecordings.get(character).set(lineNumber, clip); none models the
TypeError the source would throw when the character has no inner map. -/
def recsSet : List (String × List (Nat × Nat)) → String → Nat → Nat →
    Option (List (String × List (Nat × Nat)))
  | [], _, _, _ => none
  | (c', m) :: rest, c, k, v =>
    if c' = c then some ((c', mapSet m k v) :: rest)
    else (recsSet rest c k v).map (fun r => (c', m) :: r)

/-- audioRecordings.get(character)?.get(lineNumber). -/
def recsLookup (recs : List (String × List (Nat × Nat))) (c : String) (k : Nat) :
    Option Nat :=
  (recsGet recs c).bind (fun m => mapGet m k)

/-- The recording-session part of the application state. -/
structure RecState where
  dialogueLines : List DLine
  recordCharacters : List String
  currentCharacter : String
  currentLineIndex : Nat
  audioRecordings : List (String × List (Nat × Nat))
deriving DecidableEq

/-- dialogueLines.filter(line => line.character === currentCharacter). -/
def characterLines (s : RecState) : List DLine :=
  s.dialogueLines.filter (fun line => decide (line.character = s.currentCharacter))

/-- The storing tail of mediaRecorder.onstop: key the clip by
(currentCharacter, currentLine.number).  none models the exceptions the source
would throw (no current line, or character absent from audioRecordings). -/
def saveRecording (s : RecState) (clip : Nat) : Option RecState :=
  match (characterLines s)[s.currentLineIndex]? with
  | none => none
  | some currentLine =>
    match recsSet s.audioRecordings s.currentCharacter currentLine.number clip with
    | none => none
    | some recs => some { s with audioRecordings := recs }

/-- mediaRecorder.onstop: post-process when an effect is selected, falling back
to the raw clip when the effect chain fails, then store.  The Web-Audio effect
chain itself is abstracted as the fallible postProcess argument. -/
def onRecordingStop (postProcess : Nat → String → Except String Nat)
    (s : RecState) (selectedEffect : String) (audioClip : Nat) : Option RecState :=
  let processedClip :=
    if selectedEffect != "none" then
      match postProcess audioClip selectedEffect with
      | Except.ok b => b
      | Except.error _ => audioClip
    else audioClip
  saveRecording s processedClip

/-- nextLine: advance within the current character's filtered lines, else move
to the next selected record character, else finish (the Bool flags that
finishRecordingSession was reached). -/
def nextLine (s : RecState) : RecState × Bool :=
  let charLines := characterLines s
  if s.currentLineIndex < charLines.length - 1 then
    ({ s with currentLineIndex := s.currentLineIndex + 1 }, false)
  else
    let currentIndex : Int :=
      match s.recordCharacters.findIdx? (fun c => c == s.currentCharacter) with
      | some i => (i : Int)
      | none => -1
    if currentIndex < (s.recordCharacters.length : Int) - 1 then
      ({ s with
          currentCharacter := s.recordCharacters.getD (currentIndex + 1).toNat "",
          currentLineIndex := 0 }, false)
    else (s, true)

/-! ## Production flow -/

/-- The production part of the application state.  playRecordings and
liveSpeaking are the two playback-option checkboxes the interface reads;
speechTimeout holds the duration (ms) of the pending auto-advance timer. -/
structure ProdState where
  dialogueLines : List DLine
  recordCharacters : List String
  speakCharacters : List String
  audioRecordings : List (String × List (Nat × Nat))
  playRecordings : Bool
  liveSpeaking : Bool
  isProductionMode : Bool
  isRecording : Bool
  productionLineIndex : Nat
  speechTimeout : Option Nat
deriving DecidableEq

/-- What one updateProductionInterface render does besides updating state. -/
inductive ProdAction where
  | complete
  | playClip (clip : Nat)
  | advanceNoClip
  | waitSpeech
  | skipAdvance
deriving DecidableEq

/-- advanceProductionLine: bump the index (the 500 ms re-render it schedules is
the caller's next updateProductionInterface step; the recognition.stop() it
performs has no bearing on the modelled state). -/
def advanceProductionLine (s : ProdState) : ProdState :=
  { s with productionLineIndex := s.productionLineIndex + 1 }

/-- updateProductionInterface.  An out-of-range index (the source's
productionLineIndex >= dialogueLines.length guard) completes production. -/
def updateProductionInterface (s : ProdState) : ProdState × ProdAction :=
  match s.dialogueLines[s.productionLineIndex]? with
  | none =>
    ({ s with isProductionMode := false, speechTimeout := none }, ProdAction.complete)
  | some currentLine =>
    if s.playRecordings && s.recordCharacters.contains currentLine.character then
      match recsLookup s.audioRecordings currentLine.character currentLine.number with
      | some clip => (s, ProdAction.playClip clip)
      | none => (advanceProductionLine s, ProdAction.advanceNoClip)
    else if s.liveSpeaking && s.speakCharacters.contains currentLine.character then
      (s, ProdAction.waitSpeech)
    else
      (advanceProductionLine s, ProdAction.skipAdvance)

/-- The audio.onended (and onerror) handler installed by playAudioBlob. -/
def onPlaybackEnded (s : ProdState) : ProdState := advanceProductionLine s

/-- The completion words recognised by recognition.onresult. -/
def completionWords : List String :=
  ["done", "finished", "complete", "next", "advance", "continue"]

/-- completionWords.some(word => result.includes(word)). -/
def hasCompletionWord (result : String) : Bool :=
  completionWords.any (fun w => strIncludes result w)

/-- What one recognition.onresult invocation does besides updating state. -/
inductive SpeechAction where
  | stopRecordingCall
  | advanced
  | delayedAdvance
  | noAction
deriving DecidableEq

/-- recognition.onresult: the transcript is lowercased, a detected result
clears the pending timeout, then the completion-word / dialogue-match branches
run in the source's order. -/
def onSpeechResult (s₀ : ProdState) (transcript : String) : ProdState × SpeechAction :=
  let result := lowerStr transcript
  let s := { s₀ with speechTimeout := none }
  if s.isRecording && hasCompletionWord result then
    (s, SpeechAction.stopRecordingCall)
  else if s.isProductionMode && hasCompletionWord result then
    (advanceProductionLine s, SpeechAction.advanced)
  else if s.isProductionMode then
    match s.dialogueLines[s.productionLineIndex]? with
    | some currentLine =>
      if s.speakCharacters.contains currentLine.character then
        let dialogueWordList :=
          (splitOnChar ' ' (lowerStr currentLine.dialogue).toList).filter
            (fun w => w.length > 3)
        let spokenWords :=
          (splitOnChar ' ' result.toList).filter (fun w => w.length > 3)
        let matchingWords := spokenWords.filter (fun w => dialogueWordList.contains w)
        let isVeryShortDialogue :=
          (splitOnChar ' ' currentLine.dialogue.toList).length ≤ 2
        if 2 ≤ matchingWords.length ∨
            (1 ≤ matchingWords.length ∧ spokenWords.length ≤ 3) ∨
            (isVeryShortDialogue ∧ 0 < (trimChars result.toList).length) then
          (s, SpeechAction.delayedAdvance)
        else (s, SpeechAction.noAction)
      else (s, SpeechAction.noAction)
    | none => (s, SpeechAction.noAction)
  else (s, SpeechAction.noAction)

/-- Is production currently waiting on a live speaker
(isProductionMode && speakCharacters.has(dialogueLines[idx]?.character)). -/
def waitingOnSpeaker (s : ProdState) : Bool :=
  s.isProductionMode &&
    (match s.dialogueLines[s.productionLineIndex]? with
     | some l => s.speakCharacters.contains l.character
     | none => false)

/-- recognition.onend: while production waits on a live speaker, (re)arm the
30-second auto-advance timeout, stored as its duration in milliseconds. -/
def onRecognitionEnd (s : ProdState) : ProdState :=
  if waitingOnSpeaker s then { s with speechTimeout := some 30000 } else s

/-- The callback of the timeout armed in onRecognitionEnd: re-check the
live-wait condition, then advance. -/
def onSpeechTimeoutFire (s : ProdState) : ProdState :=
  if waitingOnSpeaker s then advanceProductionLine s else s

/-- The state assignments at the top of startProduction. -/
def startProductionState (s : ProdState) : ProdState :=
  { s with isProductionMode := true, productionLineIndex := 0 }

/-- startProduction: set the flags, reset the index, render the first step. -/
def startProduction (s : ProdState) : ProdState × ProdAction :=
  updateProductionInterface (startProductionState s)

/-- pauseProduction: only clears the production-mode flag. -/
def pauseProduction (s : ProdState) : ProdState :=
  { s with isProductionMode := false }

/-- stopProduction: clears the flag, resets the index, cancels the timeout,
and re-renders. -/
def stopProduction (s : ProdState) : ProdState × ProdAction :=
  updateProductionInterface
    { s with isProductionMode := false, productionLineIndex := 0, speechTimeout := none }

/-! ## Parser lemmas -/

/-- The four mutually exclusive outcomes of one parseDialogue loop iteration. -/
lemma parseStep_cases (st : ParseState) (line : String) :
    parseStep st line = { st with currentCharacter := "" } ∨
    parseStep st line = { st with currentCharacter := String.mk (trimChars line.toList) } ∨
    (st.currentCharacter ≠ "" ∧ isDialogue line = true ∧
      parseStep st line = { st with
        characters := addToSet st.characters st.currentCharacter,
        lines := st.lines ++
          [{ number := st.lineNumber, character := st.currentCharacter, dialogue := line }],
        lineNumber := st.lineNumber + 1 }) ∨
    parseStep st line = st := by
  unfold parseStep
  split
  · exact Or.inl rfl
  · split
    · exact Or.inr (Or.inl rfl)
    · split
      · rename_i h
        rw [Bool.and_eq_true, bne_iff_ne] at h
        exact Or.inr (Or.inr (Or.inl ⟨h.1, h.2, rfl⟩))
      · exact Or.inr (Or.inr (Or.inr rfl))

/-- A line passing isCharacterName is classified by none of the three
skip-and-clear predicates (isActionLine excludes direct character names). -/
lemma classifier_skip_of_isCharacterName (line : String) (h : isCharacterName line = true) :
    (isSceneHeading line || isActionLine line || isCharacterDescription line) = false := by
  unfold isCharacterName at h
  split at h
  · exact absurd h (by simp)
  · rename_i hsc
    rw [Bool.not_eq_true, Bool.or_eq_false_iff] at hsc
    have ha : isActionLine line = false := by
      unfold isActionLine
      rw [h]
      simp
    rw [hsc.1, ha, hsc.2]
    rfl

/-- Set.add membership. -/
lemma mem_addToSet {l : List String} {a c : String} :
    c ∈ addToSet l a ↔ c ∈ l ∨ c = a := by
  unfold addToSet
  split
  · rename_i h
    constructor
    · exact Or.inl
    · rintro (hc | rfl)
      · exact hc
      · exact h
  · simp

/-- One parse step preserves "the character set is exactly the characters of
the emitted records". -/
lemma parseStep_characters_iff (st : ParseState) (line : String)
    (h : ∀ c, c ∈ st.characters ↔ ∃ r ∈ st.lines, r.character = c) (c : String) :
    c ∈ (parseStep st line).characters ↔
      ∃ r ∈ (parseStep st line).lines, r.character = c := by
  rcases parseStep_cases st line with hc | hc | ⟨_, _, hc⟩ | hc
  · rw [hc]; exact h c
  · rw [hc]; exact h c
  · rw [hc]
    simp only [mem_addToSet, h c]
    constructor
    · rintro (⟨r, hr, hrc⟩ | rfl)
      · exact ⟨r, by simp [hr], hrc⟩
      · exact ⟨⟨st.lineNumber, st.currentCharacter, line⟩, by simp, rfl⟩
    · rintro ⟨r, hr, hrc⟩
      rcases List.mem_append.mp hr with hr | hr
      · exact Or.inl ⟨r, hr, hrc⟩
      · right
        have heq : r = ⟨st.lineNumber, st.currentCharacter, line⟩ := by simpa using hr
        rw [← hrc, heq]
  · rw [hc]; exact h c

/-- The parse loop preserves the character-set invariant. -/
lemma foldl_parse_characters (ls : List (List Char)) (st : ParseState)
    (h : ∀ c, c ∈ st.characters ↔ ∃ r ∈ st.lines, r.character = c) :
    ∀ c, c ∈ (ls.foldl (fun acc l => parseStep acc (String.mk l)) st).characters ↔
      ∃ r ∈ (ls.foldl (fun acc l => parseStep acc (String.mk l)) st).lines,
        r.character = c := by
  induction ls generalizing st with
  | nil => exact h
  | cons l t ih =>
    simp only [List.foldl_cons]
    exact ih (parseStep st (String.mk l))
      (fun c => parseStep_characters_iff st (String.mk l) h c)

/-- One parse step preserves "the numbers of the records so far are 1..n and
the counter stands at n+1". -/
lemma parseStep_numbering (st : ParseState) (line : String)
    (h1 : st.lineNumber = st.lines.length + 1)
    (h2 : st.lines.map DLine.number = List.range' 1 st.lines.length) :
    (parseStep st line).lineNumber = (parseStep st line).lines.length + 1 ∧
    (parseStep st line).lines.map DLine.number =
      List.range' 1 (parseStep st line).lines.length := by
  rcases parseStep_cases st line with hc | hc | ⟨_, _, hc⟩ | hc
  · rw [hc]; exact ⟨h1, h2⟩
  · rw [hc]; exact ⟨h1, h2⟩
  · rw [hc]
    refine ⟨by simp [h1], ?_⟩
    simp only [List.map_append, List.map_cons, List.map_nil, List.length_append,
      List.length_cons, List.length_nil]
    rw [h2, h1, List.range'_concat]
    simp [Nat.add_comm]
  · rw [hc]; exact ⟨h1, h2⟩

/-- The parse loop preserves the numbering invariant. -/
lemma foldl_parse_numbering (ls : List (List Char)) (st : ParseState)
    (h1 : st.lineNumber = st.lines.length + 1)
    (h2 : st.lines.map DLine.number = List.range' 1 st.lines.length) :
    (ls.foldl (fun acc l => parseStep acc (String.mk l)) st).lineNumber =
      (ls.foldl (fun acc l => parseStep acc (String.mk l)) st).lines.length + 1 ∧
    (ls.foldl (fun acc l => parseStep acc (String.mk l)) st).lines.map DLine.number =
      List.range' 1 (ls.foldl (fun acc l => parseStep acc (String.mk l)) st).lines.length := by
  induction ls generalizing st with
  | nil => exact ⟨h1, h2⟩
  | cons l t ih =>
    simp only [List.foldl_cons]
    have h := parseStep_numbering st (String.mk l) h1 h2
    exact ih (parseStep st (String.mk l)) h.1 h.2

/-! ## Claims C4, C5, C9 -/

/-- Claim C4: the parser classifies each trimmed non-empty line by ordered
predicates — a scene heading, action line or character description emits no
record and clears the pending character; a character-name line only resets the
pending character; while no character is pending every line (dialogue-looking
included) is dropped; and a record is emitted only for a dialogue-looking line
while a character is pending. -/
theorem C4_classifier_branches (st : ParseState) (line : String) :
    ((isSceneHeading line || isActionLine line || isCharacterDescription line) = true →
      parseStep st line = { st with currentCharacter := "" }) ∧
    (isCharacterName line = true →
      parseStep st line = { st with currentCharacter := String.mk (trimChars line.toList) }) ∧
    (st.currentCharacter = "" → (parseStep st line).lines = st.lines) ∧
    ((parseStep st line).lines ≠ st.lines →
      st.currentCharacter ≠ "" ∧ isDialogue line = true ∧
      (parseStep st line).lines = st.lines ++
        [{ number := st.lineNumber, character := st.currentCharacter, dialogue := line }]) := by
  refine ⟨?_, ?_, ?_, ?_⟩
  · intro h
    simp [parseStep, h]
  · intro h
    have hg := classifier_skip_of_isCharacterName line h
    simp [parseStep, hg, h]
  · intro h
    rcases parseStep_cases st line with hc | hc | ⟨hne, _, _⟩ | hc
    · rw [hc]
    · rw [hc]
    · exact absurd h hne
    · rw [hc]
  · intro hne
    rcases parseStep_cases st line with hc | hc | ⟨h1, h2, hc⟩ | hc
    · rw [hc] at hne; exact absurd rfl hne
    · rw [hc] at hne; exact absurd rfl hne
    · exact ⟨h1, h2, by rw [hc]⟩
    · rw [hc] at hne; exact absurd rfl hne

/-- Witness for C4 at a concrete scene-heading line and parser state. -/
theorem C4_classifier_branches_witness :
    (isSceneHeading "INT. HALL" || isActionLine "INT. HALL" ||
      isCharacterDescription "INT. HALL") = true ∧
    parseStep ⟨"SARAH", 3, [], []⟩ "INT. HALL" = ⟨"", 3, [], []⟩ :=
  ⟨by decide, (C4_classifier_branches ⟨"SARAH", 3, [], []⟩ "INT. HALL").1 (by decide)⟩

/-- Claim C5: the character set returned by parseDialogue is exactly the set of
characters carried by at least one returned record. -/
theorem C5_characters_match_records (text fileName : String) (c : String) :
    c ∈ (parseDialogue text fileName).2 ↔
      ∃ r ∈ (parseDialogue text fileName).1, r.character = c := by
  unfold parseDialogue
  exact foldl_parse_characters _ ⟨"", 1, [], []⟩ (by intro c; simp) c

/-- Claim C9: the numbers of the returned records are exactly 1, 2, …, n in
output order — positions in the emitted sequence, not source line numbers. -/
theorem C9_line_numbers_consecutive (text fileName : String) :
    (parseDialogue text fileName).1.map DLine.number =
      List.range' 1 (parseDialogue text fileName).1.length := by
  unfold parseDialogue
  exact (foldl_parse_numbering _ ⟨"", 1, [], []⟩ rfl rfl).2

/-! ## Recording-map lemmas -/

lemma mapGet_mapSet_self (m : List (Nat × Nat)) (k v : Nat) :
    mapGet (mapSet m k v) k = some v := by
  induction m with
  | nil => simp [mapSet, mapGet]
  | cons p rest ih =>
    obtain ⟨k', v'⟩ := p
    unfold mapSet
    split
    · simp [mapGet]
    · rename_i hne
      unfold mapGet
      rw [if_neg hne]
      exact ih

lemma mapGet_mapSet_ne (m : List (Nat × Nat)) (k v k2 : Nat) (h : k2 ≠ k) :
    mapGet (mapSet m k v) k2 = mapGet m k2 := by
  induction m with
  | nil =>
    simp only [mapSet, mapGet]
    rw [if_neg (fun hk => h hk.symm)]
  | cons p rest ih =>
    obtain ⟨k', v'⟩ := p
    unfold mapSet
    split
    · rename_i hk
      subst hk
      simp only [mapGet]
      rw [if_neg (fun hk => h hk.symm), if_neg (fun hk => h hk.symm)]
    · simp only [mapGet]
      split
      · rfl
      · exact ih

/-- Setting a key under a character present in the outer map succeeds, updates
exactly that character's inner map, and leaves other characters untouched. -/
lemma recsSet_spec (recs : List (String × List (Nat × Nat))) (c : String) (k v : Nat) :
    ∀ m, recsGet recs c = some m →
    ∃ recs', recsSet recs c k v = some recs' ∧
      recsGet recs' c = some (mapSet m k v) ∧
      ∀ c2, c2 ≠ c → recsGet recs' c2 = recsGet recs c2 := by
  induction recs with
  | nil => intro m h; simp [recsGet] at h
  | cons p rest ih =>
    obtain ⟨c', m'⟩ := p
    intro m h
    unfold recsGet at h
    unfold recsSet
    by_cases hc : c' = c
    · rw [if_pos hc] at h ⊢
      obtain rfl : m' = m := Option.some.inj h
      refine ⟨(c', mapSet m' k v) :: rest, rfl, ?_, ?_⟩
      · simp [recsGet, hc]
      · intro c2 hc2
        simp only [recsGet]
        rw [if_neg (hc ▸ fun he => hc2 he.symm), if_neg (hc ▸ fun he => hc2 he.symm)]
    · rw [if_neg hc] at h ⊢
      obtain ⟨r', hset, hget, hother⟩ := ih m h
      refine ⟨(c', m') :: r', by rw [hset]; rfl, ?_, ?_⟩
      · simp only [recsGet]
        rw [if_neg hc]
        exact hget
      · intro c2 hc2
        simp only [recsGet]
        split
        · rfl
        · exact hother c2 hc2

/-- saveRecording under a valid current line and a registered character: the
clip lands under (currentCharacter, currentLine.number) and nothing else moves. -/
lemma saveRecording_spec (s : RecState) (clip : Nat) (line : DLine)
    (m : List (Nat × Nat))
    (hline : (characterLines s)[s.currentLineIndex]? = some line)
    (hmap : recsGet s.audioRecordings s.currentCharacter = some m) :
    ∃ s', saveRecording s clip = some s' ∧
      recsLookup s'.audioRecordings s.currentCharacter line.number = some clip ∧
      ∀ c2 k2, ¬(c2 = s.currentCharacter ∧ k2 = line.number) →
        recsLookup s'.audioRecordings c2 k2 = recsLookup s.audioRecordings c2 k2 := by
  obtain ⟨recs', hset, hget, hother⟩ :=
    recsSet_spec s.audioRecordings s.currentCharacter line.number clip m hmap
  refine ⟨{ s with audioRecordings := recs' }, ?_, ?_, ?_⟩
  · unfold saveRecording
    rw [hline]
    simp only [hset]
  · show recsLookup recs' s.currentCharacter line.number = some clip
    unfold recsLookup
    rw [hget]
    simpa using mapGet_mapSet_self m line.number clip
  · intro c2 k2 hne
    show recsLookup recs' c2 k2 = _
    by_cases hc : c2 = s.currentCharacter
    · subst hc
      have hk : k2 ≠ line.number := fun h => hne ⟨rfl, h⟩
      unfold recsLookup
      rw [hget, hmap]
      simpa using mapGet_mapSet_ne m line.number clip k2 hk
    · unfold recsLookup
      rw [hother c2 hc]

/-! ## Claims C6, C7 -/

/-- Claim C6: the recording session walks the current character's filtered
subsequence of the dialogue lines in order, and a clip saved when a recording
stops is keyed by (currentCharacter, line.number) where the number is the
line's number in the full dialogue sequence (the stored line is a member of
dialogueLines carrying that character), not the index in the filtered walk. -/
theorem C6_recording_walk_and_key (s : RecState) (line : DLine) (clip : Nat)
    (m : List (Nat × Nat))
    (hline : (characterLines s)[s.currentLineIndex]? = some line)
    (hmap : recsGet s.audioRecordings s.currentCharacter = some m) :
    line ∈ s.dialogueLines ∧ line.character = s.currentCharacter ∧
    (∃ s', saveRecording s clip = some s' ∧
      recsLookup s'.audioRecordings s.currentCharacter line.number = some clip ∧
      ∀ c2 k2, ¬(c2 = s.currentCharacter ∧ k2 = line.number) →
        recsLookup s'.audioRecordings c2 k2 = recsLookup s.audioRecordings c2 k2) ∧
    (s.currentLineIndex < (characterLines s).length - 1 →
      nextLine s = ({ s with currentLineIndex := s.currentLineIndex + 1 }, false)) := by
  have hmemf : line ∈ characterLines s := List.getElem?_mem hline
  have hmem2 := List.mem_filter.mp hmemf
  refine ⟨hmem2.1, of_decide_eq_true hmem2.2,
    saveRecording_spec s clip line m hline hmap, ?_⟩
  intro hidx
  simp only [nextLine]
  rw [if_pos hidx]

/-- Witness for C6: a state where the current filtered index is 0 but the
current line's script number is 2 — the clip is stored under 2, not 0. -/
theorem C6_recording_walk_and_key_witness :
    (characterLines ⟨[⟨1, "BOB", "Hi."⟩, ⟨2, "ALICE", "Yes."⟩, ⟨3, "ALICE", "No."⟩],
        ["ALICE"], "ALICE", 0, [("ALICE", [])]⟩)[0]? = some ⟨2, "ALICE", "Yes."⟩ ∧
    (∃ s', saveRecording
        ⟨[⟨1, "BOB", "Hi."⟩, ⟨2, "ALICE", "Yes."⟩, ⟨3, "ALICE", "No."⟩],
          ["ALICE"], "ALICE", 0, [("ALICE", [])]⟩ 9 = some s' ∧
      recsLookup s'.audioRecordings "ALICE" 2 = some 9 ∧
      ∀ c2 k2, ¬(c2 = "ALICE" ∧ k2 = 2) →
        recsLookup s'.audioRecordings c2 k2 =
          recsLookup [("ALICE", [])] c2 k2) ∧
    nextLine ⟨[⟨1, "BOB", "Hi."⟩, ⟨2, "ALICE", "Yes."⟩, ⟨3, "ALICE", "No."⟩],
        ["ALICE"], "ALICE", 0, [("ALICE", [])]⟩ =
      (⟨[⟨1, "BOB", "Hi."⟩, ⟨2, "ALICE", "Yes."⟩, ⟨3, "ALICE", "No."⟩],
        ["ALICE"], "ALICE", 1, [("ALICE", [])]⟩, false) := by
  have h := C6_recording_walk_and_key
    ⟨[⟨1, "BOB", "Hi."⟩, ⟨2, "ALICE", "Yes."⟩, ⟨3, "ALICE", "No."⟩],
      ["ALICE"], "ALICE", 0, [("ALICE", [])]⟩ ⟨2, "ALICE", "Yes."⟩ 9 []
    (by decide) rfl
  exact ⟨by decide, h.2.2.1, h.2.2.2 (by decide)⟩

/-- Claim C7: when a recording stops with a voice effect selected, a clip is
always persisted for the current (character, lineNumber) — the post-processed
clip when the effect chain succeeds, and the original clip when it throws. -/
theorem C7_effect_fallback_persists (postProcess : Nat → String → Except String Nat)
    (s : RecState) (selectedEffect : String) (audioClip : Nat) (line : DLine)
    (m : List (Nat × Nat))
    (heff : selectedEffect ≠ "none")
    (hline : (characterLines s)[s.currentLineIndex]? = some line)
    (hmap : recsGet s.audioRecordings s.currentCharacter = some m) :
    (∀ b, postProcess audioClip selectedEffect = Except.ok b →
      ∃ s', onRecordingStop postProcess s selectedEffect audioClip = some s' ∧
        recsLookup s'.audioRecordings s.currentCharacter line.number = some b) ∧
    (∀ e, postProcess audioClip selectedEffect = Except.error e →
      ∃ s', onRecordingStop postProcess s selectedEffect audioClip = some s' ∧
        recsLookup s'.audioRecordings s.currentCharacter line.number = some audioClip) := by
  have hbne : (selectedEffect != "none") = true := bne_iff_ne.mpr heff
  constructor
  · intro b hok
    obtain ⟨s', hsave, hfound, _⟩ := saveRecording_spec s b line m hline hmap
    refine ⟨s', ?_, hfound⟩
    simp only [onRecordingStop, hbne, if_true, hok]
    exact hsave
  · intro e herr
    obtain ⟨s', hsave, hfound, _⟩ := saveRecording_spec s audioClip line m hline hmap
    refine ⟨s', ?_, hfound⟩
    simp only [onRecordingStop, hbne, if_true, herr]
    exact hsave

/-- Witness for C7: both a succeeding and a failing effect chain persist a
clip for the current line. -/
theorem C7_effect_fallback_persists_witness :
    (∃ s', onRecordingStop (fun _ _ => Except.ok 42)
        ⟨[⟨1, "ALICE", "Yes."⟩], ["ALICE"], "ALICE", 0, [("ALICE", [])]⟩
        "male" 7 = some s' ∧
      recsLookup s'.audioRecordings "ALICE" 1 = some 42) ∧
    (∃ s', onRecordingStop (fun _ _ => Except.error "decode failure")
        ⟨[⟨1, "ALICE", "Yes."⟩], ["ALICE"], "ALICE", 0, [("ALICE", [])]⟩
        "male" 7 = some s' ∧
      recsLookup s'.audioRecordings "ALICE" 1 = some 7) :=
  ⟨(C7_effect_fallback_persists (fun _ _ => Except.ok 42)
      ⟨[⟨1, "ALICE", "Yes."⟩], ["ALICE"], "ALICE", 0, [("ALICE", [])]⟩
      "male" 7 ⟨1, "ALICE", "Yes."⟩ [] (by decide) (by decide) rfl).1 42 rfl,
   (C7_effect_fallback_persists (fun _ _ => Except.error "decode failure")
      ⟨[⟨1, "ALICE", "Yes."⟩], ["ALICE"], "ALICE", 0, [("ALICE", [])]⟩
      "male" 7 ⟨1, "ALICE", "Yes."⟩ [] (by decide) (by decide) rfl).2 "decode failure" rfl⟩

/-! ## Claims C1, C2, C3, C8, C10 -/

/-- Production state exercising claim C1 as literally stated: the line's
character is in the record set and a clip is stored for (character, number),
but the play-recordings option is unchecked. -/
def playbackCexState : ProdState :=
  ⟨[⟨1, "ALICE", "Hello there."⟩], ["ALICE"], [], [("ALICE", [(1, 7)])],
    false, false, true, false, 0, none⟩

/-- Counterexample to claim C1 as stated: in production mode, with the current
line's character in the record set and a stored clip, the step does not play
the clip — it advances immediately — because the source additionally gates the
recorded branch on the playRecordings checkbox. -/
theorem C1_claim_counterexample :
    playbackCexState.isProductionMode = true ∧
    playbackCexState.dialogueLines[playbackCexState.productionLineIndex]? =
      some ⟨1, "ALICE", "Hello there."⟩ ∧
    playbackCexState.recordCharacters.contains "ALICE" = true ∧
    recsLookup playbackCexState.audioRecordings "ALICE" 1 = some 7 ∧
    (updateProductionInterface playbackCexState).2 ≠ ProdAction.playClip 7 ∧
    (updateProductionInterface playbackCexState).1.productionLineIndex =
      playbackCexState.productionLineIndex + 1 := by
  decide

/-- Claim C1 (amended with the playRecordings option, which the source checks
before the record-set membership): in production mode, when the play-recordings
option is on, the line's character is in the record set and a clip is stored
for (character, lineNumber), the step plays exactly that clip leaving the index
unchanged, and the index advances by one exactly when playback ends. -/
theorem C1_recorded_line_playback (s : ProdState) (line : DLine) (clip : Nat)
    (hmode : s.isProductionMode = true)
    (hline : s.dialogueLines[s.productionLineIndex]? = some line)
    (hplay : s.playRecordings = true)
    (hrec : line.character ∈ s.recordCharacters)
    (hclip : recsLookup s.audioRecordings line.character line.number = some clip) :
    updateProductionInterface s = (s, ProdAction.playClip clip) ∧
    (onPlaybackEnded s).productionLineIndex = s.productionLineIndex + 1 := by
  constructor
  · simp [updateProductionInterface, hline, hplay, hrec, hclip]
  · rfl

/-- Production state for the C1 witness: play-recordings on, ALICE recorded,
clip 7 stored for her line 1. -/
def playbackDemoState : ProdState :=
  ⟨[⟨1, "ALICE", "Hello there."⟩], ["ALICE"], [], [("ALICE", [(1, 7)])],
    true, false, true, false, 0, none⟩

/-- Witness for C1 at a concrete production state. -/
theorem C1_recorded_line_playback_witness :
    updateProductionInterface playbackDemoState = (playbackDemoState, ProdAction.playClip 7) ∧
    (onPlaybackEnded playbackDemoState).productionLineIndex = 1 :=
  C1_recorded_line_playback playbackDemoState ⟨1, "ALICE", "Hello there."⟩ 7
    rfl rfl rfl (by decide) (by decide)

/-- Production state exercising claim C2 as literally stated: the line's
character is in the speak set but the live-speaking option is unchecked. -/
def liveCexState : ProdState :=
  ⟨[⟨1, "ALICE", "Hello there."⟩], [], ["ALICE"], [],
    false, false, true, false, 0, none⟩

/-- Counterexample to claim C2 as stated: in production mode with the current
line's character in the live set, the step does not wait for speech — it skips
and advances — because the source additionally gates the live branch on the
liveSpeaking checkbox (and gives the recorded branch priority). -/
theorem C2_claim_counterexample :
    liveCexState.isProductionMode = true ∧
    liveCexState.dialogueLines[liveCexState.productionLineIndex]? =
      some ⟨1, "ALICE", "Hello there."⟩ ∧
    liveCexState.speakCharacters.contains "ALICE" = true ∧
    (updateProductionInterface liveCexState).2 ≠ ProdAction.waitSpeech ∧
    (updateProductionInterface liveCexState).1.productionLineIndex = 1 := by
  decide

/-- Claim C2 (amended with the liveSpeaking option, the recorded branch's
priority, and no recording in progress — all checked by the source): in
production mode, when the live-speaking option is on, the recorded branch does
not fire and the line's character is in the speak set, the step waits for
speech; a recognised transcript containing one of the completion keywords
'done', 'finished', 'complete', 'next', 'advance', 'continue' advances the
index by one; recognition ending while still waiting arms a 30000 ms timeout
whose firing advances the index by one. -/
theorem C2_live_line_speech_gate (s : ProdState) (line : DLine)
    (hmode : s.isProductionMode = true)
    (hnotrecording : s.isRecording = false)
    (hline : s.dialogueLines[s.productionLineIndex]? = some line)
    (hlive : s.liveSpeaking = true)
    (hnoplay : ¬(s.playRecordings = true ∧ line.character ∈ s.recordCharacters))
    (hspeak : line.character ∈ s.speakCharacters) :
    updateProductionInterface s = (s, ProdAction.waitSpeech) ∧
    (∀ transcript, hasCompletionWord (lowerStr transcript) = true →
      onSpeechResult s transcript =
        (advanceProductionLine { s with speechTimeout := none }, SpeechAction.advanced)) ∧
    onRecognitionEnd s = { s with speechTimeout := some 30000 } ∧
    onSpeechTimeoutFire s = advanceProductionLine s := by
  refine ⟨?_, ?_, ?_, ?_⟩
  · simp [updateProductionInterface, hline, hnoplay, hlive, hspeak]
  · intro transcript ht
    simp [onSpeechResult, hnotrecording, hmode, ht]
  · simp [onRecognitionEnd, waitingOnSpeaker, hmode, hline, hspeak]
  · simp [onSpeechTimeoutFire, waitingOnSpeaker, hmode, hline, hspeak]

/-- Production state for the C2 witness: live-speaking on, ALICE spoken live. -/
def liveDemoState : ProdState :=
  ⟨[⟨1, "ALICE", "Hello there."⟩], [], ["ALICE"], [],
    false, true, true, false, 0, none⟩

/-- Witness for C2 at a concrete production state and the transcript
"We are all done". -/
theorem C2_live_line_speech_gate_witness :
    updateProductionInterface liveDemoState = (liveDemoState, ProdAction.waitSpeech) ∧
    onSpeechResult liveDemoState "We are all done" =
      (advanceProductionLine { liveDemoState with speechTimeout := none },
        SpeechAction.advanced) ∧
    onRecognitionEnd liveDemoState = { liveDemoState with speechTimeout := some 30000 } :=
  have h := C2_live_line_speech_gate liveDemoState ⟨1, "ALICE", "Hello there."⟩
    rfl rfl rfl rfl (by decide) (by decide)
  ⟨h.1, h.2.1 "We are all done" (by decide), h.2.2.1⟩

/-- Claim C3: in production mode, a line whose character is in neither the
record set nor the speak set is auto-skipped — the index advances by one with
no clip played and no waiting for speech, whatever the two option checkboxes
say. -/
theorem C3_neither_set_auto_skip (s : ProdState) (line : DLine)
    (hmode : s.isProductionMode = true)
    (hline : s.dialogueLines[s.productionLineIndex]? = some line)
    (hnr : line.character ∉ s.recordCharacters)
    (hns : line.character ∉ s.speakCharacters) :
    updateProductionInterface s = (advanceProductionLine s, ProdAction.skipAdvance) ∧
    (advanceProductionLine s).productionLineIndex = s.productionLineIndex + 1 := by
  constructor
  · simp [updateProductionInterface, hline, hnr, hns]
  · rfl

/-- Production state for the C3 witness: both options on, BOB in neither set. -/
def skipDemoState : ProdState :=
  ⟨[⟨1, "BOB", "Hello there."⟩], [], [], [], true, true, true, false, 0, none⟩

/-- Witness for C3 at a concrete production state. -/
theorem C3_neither_set_auto_skip_witness :
    updateProductionInterface skipDemoState =
      (advanceProductionLine skipDemoState, ProdAction.skipAdvance) ∧
    (advanceProductionLine skipDemoState).productionLineIndex = 1 :=
  C3_neither_set_auto_skip skipDemoState ⟨1, "BOB", "Hello there."⟩ rfl rfl
    (by decide) (by decide)

/-- Claim C8: production is a linear walk — each advance bumps the index by
exactly one, one interface step moves the index by zero or one (so lines are
visited at most once, in increasing order), and once the index reaches the
number of dialogue lines the step clears production mode and halts. -/
theorem C8_linear_walk_halt (s : ProdState) :
    (advanceProductionLine s).productionLineIndex = s.productionLineIndex + 1 ∧
    (s.dialogueLines.length ≤ s.productionLineIndex →
      updateProductionInterface s =
        ({ s with isProductionMode := false, speechTimeout := none },
          ProdAction.complete)) ∧
    ((updateProductionInterface s).1.productionLineIndex = s.productionLineIndex ∨
      (updateProductionInterface s).1.productionLineIndex = s.productionLineIndex + 1) := by
  refine ⟨rfl, ?_, ?_⟩
  · intro h
    unfold updateProductionInterface
    rw [List.getElem?_eq_none h]
  · cases hget : s.dialogueLines[s.productionLineIndex]? with
    | none =>
      left
      simp [updateProductionInterface, hget]
    | some line =>
      by_cases h1 : s.playRecordings = true ∧ line.character ∈ s.recordCharacters
      · cases hlook : recsLookup s.audioRecordings line.character line.number with
        | none =>
          right
          simp [updateProductionInterface, hget, h1, hlook, advanceProductionLine]
        | some clip =>
          left
          simp [updateProductionInterface, hget, h1, hlook]
      · by_cases h2 : s.liveSpeaking = true ∧ line.character ∈ s.speakCharacters
        · left
          simp [updateProductionInterface, hget, h1, h2]
        · right
          simp [updateProductionInterface, hget, h1, h2, advanceProductionLine]

/-- Production state for the C8 witness: the index already equals the number
of dialogue lines. -/
def walkEndState : ProdState :=
  ⟨[], [], [], [], false, false, true, false, 0, none⟩

/-- Witness for C8 at a concrete exhausted production state. -/
theorem C8_linear_walk_halt_witness :
    (advanceProductionLine walkEndState).productionLineIndex = 1 ∧
    updateProductionInterface walkEndState =
      ({ walkEndState with isProductionMode := false, speechTimeout := none },
        ProdAction.complete) :=
  ⟨(C8_linear_walk_halt walkEndState).1,
   (C8_linear_walk_halt walkEndState).2.1 (by decide)⟩

/-- Claim C10: startProduction resets the production index to 0 (and raises the
mode flag) before rendering; pauseProduction only clears the mode flag, leaving
the index and every other field unchanged; hence starting production after a
pause is identical to a fresh start from the first dialogue line rather than a
resume. -/
theorem C10_start_resets_pause_preserves (s : ProdState) :
    (startProductionState s).productionLineIndex = 0 ∧
    (startProductionState s).isProductionMode = true ∧
    pauseProduction s = { s with isProductionMode := false } ∧
    startProduction (pauseProduction s) = startProduction s := by
  refine ⟨rfl, rfl, rfl, ?_⟩
  cases s
  rfl

end Ivan
